import Mathlib

/-!
Verification development for the Agro-database repository.

The repository's spatial intersection and zonal-aggregation engine is the
core specified by spec.md.  The repository source under `src/` contains only
the UI glue (React components) around that engine: the engine itself is
mocked with static sample values (spec §9 notes the source never implements
real geometry intersection, tie-breaking, or raster blending).  The engine
definitions below are therefore modelled from the spec; UI-level definitions
(`toggleLayer`, `dataPanel`, `downloadPanel`) are translated directly from
the TypeScript source.

Modelling choices for the engine (documented per definition):
- coordinates are exact integer micro-degrees (fixed-point), replacing
  machine floating point, so latitude 90 is `90000000`;
- polygonal regions are finite sets of unit grid cells, so that area is
  exact (cardinality), intersection is set intersection, and the
  union-based covered-area computation of spec §4.3(5) is set union;
- attribute values and derived aggregates are exact rationals.
-/

/-- Cells of the discrete planar grid used to model polygon interiors. -/
abbrev Cell : Type := ℤ × ℤ

/-- Modelled from the spec: a polygonal region is represented by the finite
set of unit grid cells it covers (the repository has no geometry engine). -/
abbrev Region : Type := Finset Cell

/-- Area of a region, in cell units, as an exact rational. -/
def area (r : Region) : ℚ := (r.card : ℚ)

/-- Layer kinds of the report, spec §3 and §4.5. -/
inductive LayerKind : Type
  | soil
  | rainfall
  | cropSuitability
  | raster
deriving DecidableEq

/-- Fixed, stable layer ordering of the Result Assembler (spec §4.5). -/
def canonicalKinds : List LayerKind :=
  [LayerKind.soil, LayerKind.rainfall, LayerKind.cropSuitability, LayerKind.raster]

/-- Tagged attribute values (spec §3: Numeric | Text | Boolean). -/
inductive AttrValue : Type
  | num (q : ℚ)
  | text (s : String)
  | bool (b : Bool)
deriving DecidableEq

/-- Modelled from the spec: a reference vector feature (spec §3).  `fid` is
the stable identifier used for categorical tie-breaking. -/
structure VectorFeature : Type where
  fid : ℕ
  layer : LayerKind
  region : Region
  attrs : List (String × AttrValue)
deriving DecidableEq

/-- Look up an attribute value by name (first binding wins). -/
def VectorFeature.attr (f : VectorFeature) (name : String) : Option AttrValue :=
  (f.attrs.find? (fun p => p.1 == name)).map Prod.snd

/-- Modelled from the spec: intersection area between the AOI region and a
feature, spec §4.3 step 3 (exact in the cell model). -/
def intersectionArea (reg : Region) (f : VectorFeature) : ℚ :=
  area (reg ∩ f.region)

/-- Modelled from the spec: the contributing features of a layer, spec §4.3
steps 1-2.  The Spatial Index prefilter only over-approximates this set and
exact overlap is resolved downstream, so the model filters the feature list
directly: features of the layer whose intersection with the AOI is
non-empty (candidates with empty or zero-area intersection are discarded). -/
def contributors (reg : Region) (k : LayerKind) (features : List VectorFeature) :
    List VectorFeature :=
  features.filter (fun f => decide (f.layer = k ∧ (reg ∩ f.region).Nonempty))

/-- Value/intersection-area pairs of the contributing features that carry a
numeric value for the given attribute (spec §4.3 step 4). -/
def numericContribs (reg : Region) (k : LayerKind) (features : List VectorFeature)
    (name : String) : List (ℚ × ℚ) :=
  (contributors reg k features).filterMap (fun f =>
    match f.attr name with
    | some (AttrValue.num v) => some (v, intersectionArea reg f)
    | _ => none)

/-- Modelled from the spec: area-weighted mean of a numeric attribute, spec
§4.3 step 4 — the report value is Σ(value·intersectionArea) divided by
Σ(intersectionArea); absent when no contributing feature carries the
attribute. -/
def numericAggregate (reg : Region) (k : LayerKind) (features : List VectorFeature)
    (name : String) : Option ℚ :=
  match numericContribs reg k features name with
  | [] => none
  | _ :: _ =>
      some (((numericContribs reg k features name).map (fun p => p.1 * p.2)).sum /
            ((numericContribs reg k features name).map Prod.snd).sum)

/-- Attribute names occurring on contributing features, deduplicated. -/
def attrNames (reg : Region) (k : LayerKind) (features : List VectorFeature) :
    List String :=
  (((contributors reg k features).map (fun f => f.attrs.map Prod.fst)).flatten).dedup

/-- Whether an attribute value participates in categorical aggregation. -/
def isCategorical : AttrValue → Bool
  | AttrValue.num _ => false
  | AttrValue.text _ => true
  | AttrValue.bool _ => true

/-- Accumulated intersection area of a distinct categorical value across the
contributing features (spec §4.3 step 4). -/
def catAccArea (reg : Region) (cs : List VectorFeature) (name : String)
    (v : AttrValue) : ℚ :=
  ((cs.filter (fun f => f.attr name == some v)).map (fun f => intersectionArea reg f)).sum

/-- Modelled from the spec: dominant categorical value, spec §4.3 step 4 —
the value with the greatest accumulated intersection area; ties broken by
the contributing feature with the lowest stable identifier.  The contributor
list is traversed in ascending-`fid` order and a candidate only replaces the
current best on strictly greater accumulated area, so the lowest-`fid`
maximiser wins ties. -/
def dominantCategory (reg : Region) (cs : List VectorFeature) (name : String) :
    Option AttrValue :=
  (cs.filterMap (fun f =>
      match f.attr name with
      | some v => if isCategorical v then some v else none
      | none => none)).foldl
    (fun best v =>
      match best with
      | none => some v
      | some b => if catAccArea reg cs name b < catAccArea reg cs name v then some v else best)
    none

/-- Modelled from the spec: the part of the AOI covered by at least one
contributing feature of the layer — the union of the per-feature
intersections, as spec §4.3 step 5 requires for the covered-area numerator
(overlapping candidates are deduplicated by unioning, not by summing). -/
def coveredRegion (reg : Region) (k : LayerKind) (features : List VectorFeature) :
    Region :=
  reg.filter (fun c => (contributors reg k features).any (fun f => decide (c ∈ f.region)))

/-- Modelled from the spec: covered-area fraction, spec §4.3 step 5 — the
unioned overlap area divided by the AOI area, clamped to [0,1]. -/
def coveredFraction (reg : Region) (k : LayerKind) (features : List VectorFeature) : ℚ :=
  if area reg = 0 then 0
  else min 1 (max 0 (area (coveredRegion reg k features) / area reg))

/-- Per-layer aggregate of the report (spec §3, AggregatedLayer). -/
structure AggregatedLayer : Type where
  layer : LayerKind
  contributingCount : ℕ
  numericAggregates : List (String × ℚ)
  categoricalAggregates : List (String × AttrValue)
  coveredFraction : ℚ
deriving DecidableEq

/-- Modelled from the spec: the Intersection & Aggregation Engine for one
layer kind (spec §4.3). -/
def aggregateLayer (reg : Region) (k : LayerKind) (features : List VectorFeature) :
    AggregatedLayer :=
  { layer := k
    contributingCount := (contributors reg k features).length
    numericAggregates := (attrNames reg k features).filterMap (fun n =>
      (numericAggregate reg k features n).map (fun q => (n, q)))
    categoricalAggregates := (attrNames reg k features).filterMap (fun n =>
      (dominantCategory reg (contributors reg k features) n).map (fun v => (n, v)))
    coveredFraction := coveredFraction reg k features }

/-- Coordinates of AOI vertices: (longitude, latitude) in exact integer
micro-degrees, the fixed-point model of the caller-supplied coordinates. -/
abbrev Coord : Type := ℤ × ℤ

/-- Geometry error taxonomy of spec §7. -/
inductive GeometryError : Type
  | invalidRing
  | selfIntersecting
  | degenerateArea
  | outOfBounds
deriving DecidableEq

/-- Bounds check of spec §4.1: latitude ∈ [-90,90], longitude ∈ [-180,180],
in micro-degrees. -/
def vertexInBounds (p : Coord) : Prop :=
  -180000000 ≤ p.1 ∧ p.1 ≤ 180000000 ∧ -90000000 ≤ p.2 ∧ p.2 ≤ 90000000

instance (p : Coord) : Decidable (vertexInBounds p) := by
  unfold vertexInBounds; infer_instance

/-- Closure tolerance of spec §4.1 ("auto-closing if within a small
tolerance"): one micro-degree per axis. -/
def closeTol : ℤ := 1

/-- Modelled from the spec: ring-closure validation and repair, spec §4.1 —
the first vertex must equal the last, auto-closing when they are within the
tolerance, rejecting with `invalidRing` otherwise. -/
def closeRing (r : List Coord) : Except GeometryError (List Coord) :=
  match r with
  | [] => Except.error GeometryError.invalidRing
  | v :: _ =>
    match r.getLast? with
    | none => Except.error GeometryError.invalidRing
    | some w =>
      if v = w then Except.ok r
      else if |v.1 - w.1| ≤ closeTol ∧ |v.2 - w.2| ≤ closeTol then Except.ok (r ++ [v])
      else Except.error GeometryError.invalidRing

/-- Twice the signed area of a closed ring (integer shoelace sum). -/
def shoelace (r : List Coord) : ℤ :=
  ((r.zip r.tail).map (fun e => e.1.1 * e.2.2 - e.2.1 * e.1.2)).sum

/-- Cross product of `b - a` and `c - a`, the orientation test. -/
def cross2 (a b c : Coord) : ℤ :=
  (b.1 - a.1) * (c.2 - a.2) - (b.2 - a.2) * (c.1 - a.1)

/-- Whether `p`, known collinear with segment `a b`, lies within its box. -/
def onSegment (a b p : Coord) : Bool :=
  decide (min a.1 b.1 ≤ p.1 ∧ p.1 ≤ max a.1 b.1 ∧ min a.2 b.2 ≤ p.2 ∧ p.2 ≤ max a.2 b.2)

/-- Standard exact segment-intersection test for segments `a b` and `c d`. -/
def segmentsMeet (a b c d : Coord) : Bool :=
  let d1 := cross2 a b c
  let d2 := cross2 a b d
  let d3 := cross2 c d a
  let d4 := cross2 c d b
  (decide (d1 * d2 < 0) && decide (d3 * d4 < 0)) ||
  (decide (d1 = 0) && onSegment a b c) ||
  (decide (d2 = 0) && onSegment a b d) ||
  (decide (d3 = 0) && onSegment c d a) ||
  (decide (d4 = 0) && onSegment c d b)

/-- Modelled from the spec: simplicity check of spec §4.1 — a closed ring of
`n` edges is non-simple when two non-adjacent edges meet. -/
def ringSelfIntersects (r : List Coord) : Bool :=
  let n := r.length - 1
  (List.range n).any (fun i =>
    (List.range n).any (fun j =>
      decide (i + 2 ≤ j) && !(decide (i = 0) && decide (j = n - 1)) &&
      segmentsMeet (r.getD i (0, 0)) (r.getD (i + 1) (0, 0))
        (r.getD j (0, 0)) (r.getD (j + 1) (0, 0))))

/-- Modelled from the spec: per-ring validation of spec §4.1 — closure (with
auto-close), minimum vertex count, simplicity, and non-degenerate area. -/
def validateRing (r : List Coord) : Except GeometryError (List Coord) := do
  let c ← closeRing r
  if c.length < 4 then Except.error GeometryError.invalidRing
  else if ringSelfIntersects c then Except.error GeometryError.selfIntersecting
  else if shoelace c = 0 then Except.error GeometryError.degenerateArea
  else Except.ok c

/-- Axis-aligned bounding box of a vertex list, spec §4.1. -/
def bboxOf (vs : List Coord) : Coord × Coord :=
  match vs with
  | [] => ((0, 0), (0, 0))
  | v :: rest =>
      (rest.foldl (fun acc p => (min acc.1 p.1, min acc.2 p.2)) v,
       rest.foldl (fun acc p => (max acc.1 p.1, max acc.2 p.2)) v)

/-- Canonical AOI produced by the Geometry Normalizer: validated closed
rings plus the computed axis-aligned bounding box (spec §4.1). -/
structure AOI : Type where
  rings : List (List Coord)
  bbox : Coord × Coord
deriving DecidableEq

/-- Modelled from the spec: the Geometry Normalizer (spec §4.1 and §7).  The
cheap whole-AOI bounds check runs first (fail fast); the per-ring closure,
simplicity, and degeneracy checks follow; the output is the canonical AOI
with its bounding box.  An empty ring list is rejected, since spec §3
requires one or more rings. -/
def normalizeAOI (rings : List (List Coord)) : Except GeometryError AOI :=
  if rings.isEmpty then Except.error GeometryError.invalidRing
  else if rings.any (fun r => r.any (fun p => !(decide (vertexInBounds p)))) then
    Except.error GeometryError.outOfBounds
  else do
    let canon ← rings.mapM validateRing
    Except.ok { rings := canon, bbox := bboxOf canon.flatten }

/-- Parity crossing test in doubled coordinates: `p` is a doubled point, the
ring vertices are doubled as well, so that cell centers avoid all vertex
degeneracies.  An upward edge is crossed by the rightward ray from `p` when
`p` lies strictly left of it, a downward edge when strictly right. -/
def pointInRingD (p : Coord) (ring : List Coord) : Bool :=
  ((ring.zip ring.tail).filter (fun e =>
      let a := e.1
      let b := e.2
      (decide (a.2 ≤ p.2) && decide (p.2 < b.2) && decide (0 < cross2 a b p)) ||
      (decide (b.2 ≤ p.2) && decide (p.2 < a.2) && decide (cross2 a b p < 0)))).length % 2 == 1

/-- Even-odd membership of a doubled point in the whole multi-ring AOI. -/
def pointInAOID (p : Coord) (rings : List (List Coord)) : Bool :=
  rings.foldl (fun acc r => xor acc (pointInRingD p (r.map (fun q => (2 * q.1, 2 * q.2))))) false

/-- Integer interval `[lo, hi)` as a list. -/
def intRange (lo hi : ℤ) : List ℤ :=
  (List.range (hi - lo).toNat).map (fun i => lo + (i : ℤ))

/-- Modelled from the spec: the conversion of a canonical AOI into the cell
model — a cell belongs to the AOI region when its center lies inside the
polygon under the even-odd rule.  The candidate cells are bounded by the
AOI bounding box. -/
def rasterize (aoi : AOI) : Region :=
  ((intRange aoi.bbox.1.1 aoi.bbox.2.1).flatMap (fun i =>
    (intRange aoi.bbox.1.2 aoi.bbox.2.2).filterMap (fun j =>
      if pointInAOID (2 * i + 1, 2 * j + 1) aoi.rings then some ((i, j) : Cell)
      else none))).toFinset

/-- Ordering of features by their stable identifier. -/
def fidLE (a b : VectorFeature) : Prop := a.fid ≤ b.fid

instance : DecidableRel fidLE := fun a b => Nat.decLe a.fid b.fid

instance : IsTotal VectorFeature fidLE := ⟨fun a b => Nat.le_total a.fid b.fid⟩

instance : IsTrans VectorFeature fidLE := ⟨fun _ _ _ => Nat.le_trans⟩

/-- Canonical enumeration of the reference features in ascending stable
identifier order, making every downstream fold independent of the order the
backing store yields the features in (spec §4.3's determinism demand). -/
def sortByFid (features : List VectorFeature) : List VectorFeature :=
  List.insertionSort fidLE features

/-- Report produced for one request (spec §3, AreaReport). -/
structure AreaReport : Type where
  layers : List AggregatedLayer
  dataVersion : ℕ
deriving DecidableEq

/-- Modelled from the spec: the per-request report body — one AggregatedLayer
per requested layer kind, in the fixed canonical order of spec §4.5. -/
def buildReport (aoi : AOI) (requested : List LayerKind) (features : List VectorFeature)
    (dv : ℕ) : AreaReport :=
  { layers := (canonicalKinds.filter (fun k => decide (k ∈ requested))).map
      (fun k => aggregateLayer (rasterize aoi) k (sortByFid features))
    dataVersion := dv }

/-- Modelled from the spec: `computeAreaReport` (spec §6) — normalize the
caller's ring list, aborting on any geometry validation failure before any
spatial work, then aggregate every requested layer over the canonical AOI. -/
def computeAreaReport (rings : List (List Coord)) (requested : List LayerKind)
    (features : List VectorFeature) (dv : ℕ) : Except GeometryError AreaReport :=
  match normalizeAOI rings with
  | Except.error e => Except.error e
  | Except.ok aoi => Except.ok (buildReport aoi requested features dv)

/-- The report entry of a given layer kind, if present. -/
def AreaReport.layerFor (rep : AreaReport) (k : LayerKind) : Option AggregatedLayer :=
  rep.layers.find? (fun a => a.layer == k)

/-- First per-layer result carrying the given kind, in completion order. -/
def lookupKind (k : LayerKind) : List (LayerKind × AggregatedLayer) → Option AggregatedLayer
  | [] => none
  | p :: rest => if p.1 = k then some p.2 else lookupKind k rest

/-- Modelled from the spec: the Result Assembler (spec §4.5) — collects the
per-layer results, which arrive in arbitrary completion order, into one
report with the fixed canonical layer ordering. -/
def assembleReport (dv : ℕ) (results : List (LayerKind × AggregatedLayer)) : AreaReport :=
  { layers := canonicalKinds.filterMap (fun k => lookupKind k results)
    dataVersion := dv }

/-- Layer visibility state of the UI, from `App.tsx` (`LayerVisibility`). -/
structure LayerVisibility : Type where
  soil : Bool
  rainfall : Bool
  ndvi : Bool
deriving DecidableEq

/-- Keys of `LayerVisibility`, from `keyof LayerVisibility` in `App.tsx`. -/
inductive LayerKey : Type
  | soil
  | rainfall
  | ndvi
deriving DecidableEq

/-- Field projection of `LayerVisibility` by key. -/
def getLayer (s : LayerVisibility) : LayerKey → Bool
  | LayerKey.soil => s.soil
  | LayerKey.rainfall => s.rainfall
  | LayerKey.ndvi => s.ndvi

/-- Translation of `toggleLayer` in `App.tsx`: the new state spreads the
previous one and negates exactly the addressed field. -/
def toggleLayer (k : LayerKey) (s : LayerVisibility) : LayerVisibility :=
  match k with
  | LayerKey.soil => { s with soil := !s.soil }
  | LayerKey.rainfall => { s with rainfall := !s.rainfall }
  | LayerKey.ndvi => { s with ndvi := !s.ndvi }

/-- Selection types of `SelectedArea` in `App.tsx`. -/
inductive SelType : Type
  | coordinates
  | polygon
  | search
deriving DecidableEq

/-- Translation of the `SelectedArea` state shape in `App.tsx`; the loosely
typed `data` payload is reduced to the polygon point list the panels use. -/
structure SelectedArea : Type where
  type : SelType
  data : List Coord
  label : Option String
deriving DecidableEq

/-- Mock soil table of `DataPanel.tsx` (`mockSoilData`). -/
structure SoilInfo : Type where
  soilType : String
  ph : ℚ
  organicMatter : String
  nitrogen : String
  phosphorus : String
  potassium : String
deriving DecidableEq

/-- Mock rainfall table of `DataPanel.tsx` (`mockRainfallData`). -/
structure RainfallInfo : Type where
  annualAverage : String
  monsoonAverage : String
  drySeasonAverage : String
  zone : String
deriving DecidableEq

/-- Mock crop block of `DataPanel.tsx` (`mockCropData`). -/
structure CropInfo : Type where
  suitableCrops : List String
  recommendedCrop : String
  growingSeason : String
deriving DecidableEq

/-- Rendered content of the data panel. -/
structure DataPanelView : Type where
  selectionType : SelType
  soil : SoilInfo
  rainfall : RainfallInfo
  crops : CropInfo
deriving DecidableEq

/-- Static soil values of `DataPanel.tsx`. -/
def mockSoilData : SoilInfo :=
  { soilType := "Alluvial", ph := 68 / 10, organicMatter := "2.3%",
    nitrogen := "Medium", phosphorus := "Low", potassium := "High" }

/-- Static rainfall values of `DataPanel.tsx`. -/
def mockRainfallData : RainfallInfo :=
  { annualAverage := "1200mm", monsoonAverage := "850mm",
    drySeasonAverage := "120mm", zone := "High Rainfall Zone" }

/-- Static crop values of `DataPanel.tsx`. -/
def mockCropData : CropInfo :=
  { suitableCrops := ["Rice", "Wheat", "Sugarcane", "Vegetables"],
    recommendedCrop := "Rice", growingSeason := "June - November" }

/-- Translation of `DataPanel` (`DataPanel.tsx`): with no selected area it
returns null, otherwise it renders the mock soil, rainfall, and crop data. -/
def dataPanel (selectedArea : Option SelectedArea) : Option DataPanelView :=
  match selectedArea with
  | none => none
  | some a => some
      { selectionType := a.type, soil := mockSoilData,
        rainfall := mockRainfallData, crops := mockCropData }

/-- Translation of `DownloadPanel` (`DownloadPanel.tsx`): with no selected
area it returns null, otherwise it renders the four download buttons. -/
def downloadPanel (selectedArea : Option SelectedArea) : Option (List String) :=
  match selectedArea with
  | none => none
  | some _ => some ["CSV", "GeoJSON", "GeoTIFF", "PDF Report"]


/-- Scenario B ring of spec §8: a 5×1 rectangle (in model units). -/
def sqRing : List Coord := [(0, 0), (5, 0), (5, 1), (0, 1), (0, 0)]

/-- Canonical AOI of `sqRing`. -/
def aoiB : AOI := { rings := [sqRing], bbox := ((0, 0), (5, 1)) }

/-- Scenario B soil polygon holding 60% of the AOI, pH 6.5. -/
def featA : VectorFeature :=
  ⟨1, LayerKind.soil, {((0 : ℤ), (0 : ℤ)), (1, 0), (2, 0)}, [("ph", AttrValue.num (13 / 2))]⟩

/-- Scenario B soil polygon holding 40% of the AOI, pH 7.5. -/
def featB : VectorFeature :=
  ⟨2, LayerKind.soil, {((3 : ℤ), (0 : ℤ)), (4, 0)}, [("ph", AttrValue.num (15 / 2))]⟩

/-- Unit-square test ring. -/
def unitRing : List Coord := [(0, 0), (1, 0), (1, 1), (0, 1), (0, 0)]

/-- Canonical AOI of `unitRing`. -/
def aoiU : AOI := { rings := [unitRing], bbox := ((0, 0), (1, 1)) }

/-- Test ring with a latitude beyond 90 degrees (95000000 micro-degrees). -/
def badRing : List Coord := [(0, 95000000), (1, 0), (2, 2), (0, 95000000)]

/-- Single-cell soil feature used by the covered-fraction counterexample. -/
def cellFeat : VectorFeature :=
  ⟨0, LayerKind.soil, {((0 : ℤ), (0 : ℤ))}, [("zone", AttrValue.text "A")]⟩

/-- Two-cell soil feature with only a categorical attribute. -/
def catX : VectorFeature :=
  ⟨4, LayerKind.soil, {((0 : ℤ), (0 : ℤ)), (1, 0)}, [("zone", AttrValue.text "A")]⟩

/-- One-cell rainfall feature with only a categorical attribute. -/
def catY : VectorFeature :=
  ⟨7, LayerKind.rainfall, {((0 : ℤ), (0 : ℤ))}, [("zone", AttrValue.text "B")]⟩

/-- Feature used by the weighted-mean-bounds witness: one cell, value 6. -/
def featLo : VectorFeature :=
  ⟨1, LayerKind.soil, {((0 : ℤ), (0 : ℤ))}, [("ph", AttrValue.num 6)]⟩

/-- Feature used by the weighted-mean-bounds witness: one cell, value 8. -/
def featHi : VectorFeature :=
  ⟨2, LayerKind.soil, {((1 : ℤ), (0 : ℤ))}, [("ph", AttrValue.num 8)]⟩

/-- Empty per-layer aggregate of a kind, used by assembler witnesses. -/
def blankAgg (k : LayerKind) : AggregatedLayer :=
  { layer := k, contributingCount := 0, numericAggregates := [],
    categoricalAggregates := [], coveredFraction := 0 }

/-- Two-cell AOI region of the weighted-mean-bounds witness. -/
def regW : Region := {((0 : ℤ), (0 : ℤ)), (1, 0)}

/-- Weighted-mean value of the bounds witness, as the ratio of sums. -/
def qW : ℚ :=
  (([((6 : ℚ), (1 : ℚ)), ((8 : ℚ), (1 : ℚ))].map (fun p => p.1 * p.2)).sum /
   ([((6 : ℚ), (1 : ℚ)), ((8 : ℚ), (1 : ℚ))].map Prod.snd).sum)

/-- Scenario B aggregate pH value, as the ratio of the accumulated sums. -/
def qB : ℚ :=
  (([((13 : ℚ) / 2, (3 : ℚ)), ((15 : ℚ) / 2, (2 : ℚ))].map (fun p => p.1 * p.2)).sum /
   ([((13 : ℚ) / 2, (3 : ℚ)), ((15 : ℚ) / 2, (2 : ℚ))].map Prod.snd).sum)

/-- Assembler witness input: all four layer results, reversed completion
order. -/
def rsW : List (LayerKind × AggregatedLayer) :=
  [(LayerKind.raster, blankAgg LayerKind.raster),
   (LayerKind.cropSuitability, blankAgg LayerKind.cropSuitability),
   (LayerKind.rainfall, blankAgg LayerKind.rainfall),
   (LayerKind.soil, blankAgg LayerKind.soil)]

/-- Assembler witness input: the same four layer results, canonical order. -/
def rsW2 : List (LayerKind × AggregatedLayer) :=
  [(LayerKind.soil, blankAgg LayerKind.soil),
   (LayerKind.rainfall, blankAgg LayerKind.rainfall),
   (LayerKind.cropSuitability, blankAgg LayerKind.cropSuitability),
   (LayerKind.raster, blankAgg LayerKind.raster)]

/-- Unfolding lemma: a successful normalization determines the report. -/
theorem computeAreaReport_ok {rings : List (List Coord)} {aoi : AOI}
    (h : normalizeAOI rings = Except.ok aoi) (req : List LayerKind)
    (features : List VectorFeature) (dv : ℕ) :
    computeAreaReport rings req features dv = Except.ok (buildReport aoi req features dv) := by
  simp [computeAreaReport, h]

/-- Unfolding lemma: a failed normalization fails the whole request, for any
reference data — no spatial work happens. -/
theorem computeAreaReport_error {rings : List (List Coord)} {e : GeometryError}
    (h : normalizeAOI rings = Except.error e) (req : List LayerKind)
    (features : List VectorFeature) (dv : ℕ) :
    computeAreaReport rings req features dv = Except.error e := by
  simp [computeAreaReport, h]

/-- Two fid-sorted lists of features with no duplicate identifiers that are
permutations of each other are equal. -/
theorem sorted_eq_of_perm_nodup :
    ∀ {l₁ l₂ : List VectorFeature}, List.Perm l₁ l₂ →
      (l₁.map VectorFeature.fid).Nodup →
      l₁.Sorted fidLE → l₂.Sorted fidLE → l₁ = l₂ := by
  intro l₁
  induction l₁ with
  | nil =>
      intro l₂ hp _ _ _
      exact hp.nil_eq
  | cons a t ih =>
      intro l₂ hp hnd hs₁ hs₂
      cases l₂ with
      | nil => exact absurd hp.symm.nil_eq (by simp)
      | cons b u =>
          have hab : a = b := by
            have hbmem : b ∈ a :: t := hp.symm.subset (List.mem_cons_self b u)
            have hamem : a ∈ b :: u := hp.subset (List.mem_cons_self a t)
            rcases List.mem_cons.mp hbmem with h | hbt
            · exact h.symm
            rcases List.mem_cons.mp hamem with h | hau
            · exact h
            have h1 : a.fid ≤ b.fid := List.rel_of_sorted_cons hs₁ b hbt
            have h2 : b.fid ≤ a.fid := List.rel_of_sorted_cons hs₂ a hau
            have hfid : b.fid = a.fid := Nat.le_antisymm h2 h1
            have hnd2 : a.fid ∉ t.map VectorFeature.fid ∧ (t.map VectorFeature.fid).Nodup :=
              List.nodup_cons.mp (by rw [List.map_cons] at hnd; exact hnd)
            exact absurd (hfid ▸ List.mem_map_of_mem VectorFeature.fid hbt) hnd2.1
          subst hab
          have hnd2 : a.fid ∉ t.map VectorFeature.fid ∧ (t.map VectorFeature.fid).Nodup :=
            List.nodup_cons.mp (by rw [List.map_cons] at hnd; exact hnd)
          have htail : t = u := ih hp.cons_inv hnd2.2 hs₁.of_cons hs₂.of_cons
          rw [htail]

/-- Canonical fid-sorting is permutation-invariant on duplicate-free data. -/
theorem sortByFid_eq_of_perm {f₁ f₂ : List VectorFeature} (hf : List.Perm f₁ f₂)
    (hnd : (f₁.map VectorFeature.fid).Nodup) : sortByFid f₁ = sortByFid f₂ := by
  refine sorted_eq_of_perm_nodup
    ((List.perm_insertionSort fidLE f₁).trans (hf.trans (List.perm_insertionSort fidLE f₂).symm))
    ?_ (List.sorted_insertionSort fidLE f₁) (List.sorted_insertionSort fidLE f₂)
  exact ((List.perm_insertionSort fidLE f₁).map VectorFeature.fid).nodup_iff.mpr hnd

/-- Every contributing value/area pair carries a positive intersection area. -/
theorem numericContribs_area_pos {reg : Region} {k : LayerKind}
    {features : List VectorFeature} {name : String} {p : ℚ × ℚ}
    (hp : p ∈ numericContribs reg k features name) : 0 < p.2 := by
  rw [numericContribs, List.mem_filterMap] at hp
  obtain ⟨f, hf, heq⟩ := hp
  rw [contributors, List.mem_filter] at hf
  have hne : (reg ∩ f.region).Nonempty := (of_decide_eq_true hf.2).2
  cases hattr : f.attr name with
  | none => rw [hattr] at heq; exact absurd heq (by simp)
  | some v =>
      cases v with
      | num q =>
          rw [hattr] at heq
          have : p = (q, intersectionArea reg f) := by
            simpa using heq.symm
          rw [this]
          show (0 : ℚ) < ((reg ∩ f.region).card : ℚ)
          exact_mod_cast Finset.card_pos.mpr hne
      | text s => rw [hattr] at heq; exact absurd heq (by simp)
      | bool b => rw [hattr] at heq; exact absurd heq (by simp)

/-- Total weight of a non-empty list of positive-weight pairs is positive. -/
theorem total_weight_pos :
    ∀ (l : List (ℚ × ℚ)), l ≠ [] → (∀ p ∈ l, 0 < p.2) → 0 < (l.map Prod.snd).sum := by
  intro l hne hpos
  cases l with
  | nil => exact absurd rfl hne
  | cons p t =>
      simp only [List.map_cons, List.sum_cons]
      refine add_pos_of_pos_of_nonneg (hpos p (List.mem_cons_self p t)) ?_
      exact List.sum_nonneg (by
        intro x hx
        obtain ⟨q, hq, rfl⟩ := List.mem_map.mp hx
        exact le_of_lt (hpos q (List.mem_cons_of_mem p hq)))

/-- Upper weighted-sum bound: values at most `hi` with nonnegative weights. -/
theorem weightedSum_le :
    ∀ (l : List (ℚ × ℚ)) (hi : ℚ), (∀ p ∈ l, p.1 ≤ hi) → (∀ p ∈ l, 0 ≤ p.2) →
      (l.map (fun p => p.1 * p.2)).sum ≤ hi * (l.map Prod.snd).sum := by
  intro l hi
  induction l with
  | nil => intro _ _; simp
  | cons p t ih =>
      intro hv hw
      simp only [List.map_cons, List.sum_cons, mul_add]
      refine add_le_add ?_ (ih (fun x hx => hv x (List.mem_cons_of_mem p hx))
        (fun x hx => hw x (List.mem_cons_of_mem p hx)))
      exact mul_le_mul_of_nonneg_right (hv p (List.mem_cons_self p t))
        (hw p (List.mem_cons_self p t))

/-- Lower weighted-sum bound: values at least `lo` with nonnegative weights. -/
theorem le_weightedSum :
    ∀ (l : List (ℚ × ℚ)) (lo : ℚ), (∀ p ∈ l, lo ≤ p.1) → (∀ p ∈ l, 0 ≤ p.2) →
      lo * (l.map Prod.snd).sum ≤ (l.map (fun p => p.1 * p.2)).sum := by
  intro l lo
  induction l with
  | nil => intro _ _; simp
  | cons p t ih =>
      intro hv hw
      simp only [List.map_cons, List.sum_cons, mul_add]
      refine add_le_add ?_ (ih (fun x hx => hv x (List.mem_cons_of_mem p hx))
        (fun x hx => hw x (List.mem_cons_of_mem p hx)))
      exact mul_le_mul_of_nonneg_right (hv p (List.mem_cons_self p t))
        (hw p (List.mem_cons_self p t))

/-- Folded minimum is below the seed. -/
theorem foldr_min_le_init : ∀ (l : List ℚ) (d : ℚ), l.foldr min d ≤ d := by
  intro l d
  induction l with
  | nil => simp
  | cons x t ih => simpa using le_trans (min_le_right x (t.foldr min d)) ih

/-- Folded minimum is below every element. -/
theorem foldr_min_le :
    ∀ (l : List ℚ) (d x : ℚ), x ∈ l → l.foldr min d ≤ x := by
  intro l d
  induction l with
  | nil => intro x hx; exact absurd hx (List.not_mem_nil x)
  | cons y t ih =>
      intro x hx
      rcases List.mem_cons.mp hx with h | h
      · rw [h]; exact min_le_left y (t.foldr min d)
      · exact le_trans (min_le_right y (t.foldr min d)) (ih x h)

/-- Folded maximum is above the seed. -/
theorem init_le_foldr_max : ∀ (l : List ℚ) (d : ℚ), d ≤ l.foldr max d := by
  intro l d
  induction l with
  | nil => simp
  | cons x t ih => simpa using le_trans ih (le_max_right x (t.foldr max d))

/-- Folded maximum is above every element. -/
theorem le_foldr_max :
    ∀ (l : List ℚ) (d x : ℚ), x ∈ l → x ≤ l.foldr max d := by
  intro l d
  induction l with
  | nil => intro x hx; exact absurd hx (List.not_mem_nil x)
  | cons y t ih =>
      intro x hx
      rcases List.mem_cons.mp hx with h | h
      · rw [h]; exact le_max_left y (t.foldr max d)
      · exact le_trans (ih x h) (le_max_right y (t.foldr max d))

/-- Membership in the numeric aggregates pins down the aggregate value. -/
theorem mem_numericAggregates {reg : Region} {k : LayerKind}
    {features : List VectorFeature} {name : String} {q : ℚ}
    (h : (name, q) ∈ (aggregateLayer reg k features).numericAggregates) :
    numericAggregate reg k features name = some q := by
  simp only [aggregateLayer, List.mem_filterMap] at h
  obtain ⟨n, _, hsome⟩ := h
  obtain ⟨q', hq', heq⟩ := Option.map_eq_some'.mp hsome
  have hn : n = name := congrArg Prod.fst heq
  have hq : q' = q := congrArg Prod.snd heq
  rw [hn, hq] at hq'
  exact hq'

/-- A present numeric aggregate is exactly the ratio of the two accumulated
sums of spec §4.3 step 4, over a non-empty contributor list. -/
theorem numericAggregate_eq_ratio {reg : Region} {k : LayerKind}
    {features : List VectorFeature} {name : String} {q : ℚ}
    (h : numericAggregate reg k features name = some q) :
    numericContribs reg k features name ≠ [] ∧
    q = ((numericContribs reg k features name).map (fun p => p.1 * p.2)).sum /
        ((numericContribs reg k features name).map Prod.snd).sum := by
  rw [numericAggregate] at h
  cases hcs : numericContribs reg k features name with
  | nil => rw [hcs] at h; exact absurd h (by simp)
  | cons c t =>
      rw [hcs] at h
      simp only [Option.some.injEq] at h
      exact ⟨by simp [hcs], h.symm⟩

/-- Completion-order independence of result lookup on duplicate-free keys. -/
theorem lookupKind_perm {rs rs' : List (LayerKind × AggregatedLayer)}
    (hp : List.Perm rs rs') :
    (rs.map Prod.fst).Nodup → ∀ k, lookupKind k rs = lookupKind k rs' := by
  induction hp with
  | nil => intro _ k; rfl
  | cons x _ ih =>
      intro hnd k
      have hnd2 := List.nodup_cons.mp (by rw [List.map_cons] at hnd; exact hnd)
      simp only [lookupKind]
      split
      · rfl
      · exact ih hnd2.2 k
  | swap x y t =>
      intro hnd k
      have hxy : y.1 ≠ x.1 := by
        rw [List.map_cons, List.map_cons] at hnd
        exact (List.nodup_cons.mp hnd).1 ∘ (fun h => h ▸ List.mem_cons_self x.1 _)
      simp only [lookupKind]
      by_cases hy : y.1 = k
      · by_cases hx : x.1 = k
        · exact absurd (hy.trans hx.symm) hxy
        · simp [hy, hx]
      · by_cases hx : x.1 = k
        · simp [hy, hx]
        · simp [hy, hx]
  | trans h₁ _ ih₁ ih₂ =>
      intro hnd k
      exact (ih₁ hnd k).trans (ih₂ ((h₁.map Prod.fst).nodup hnd) k)

/-- Presence of a kind among the results equals success of its lookup. -/
theorem lookupKind_isSome_eq :
    ∀ (rs : List (LayerKind × AggregatedLayer)) (k : LayerKind),
      (lookupKind k rs).isSome = decide (k ∈ rs.map Prod.fst) := by
  intro rs k
  induction rs with
  | nil => simp [lookupKind]
  | cons p t ih =>
      simp only [lookupKind]
      split
      · rename_i h
        simp [List.map_cons, h]
      · rename_i h
        rw [ih]
        simp only [List.map_cons, List.mem_cons]
        have : ¬ k = p.1 := fun hk => h hk.symm
        simp [this]

/-- A looked-up result of a well-formed result list carries its key's kind. -/
theorem lookupKind_layer :
    ∀ {rs : List (LayerKind × AggregatedLayer)} {k : LayerKind} {a : AggregatedLayer},
      lookupKind k rs = some a → (∀ p ∈ rs, (p.2).layer = p.1) → a.layer = k := by
  intro rs
  induction rs with
  | nil => intro k a h _; exact absurd h (by simp [lookupKind])
  | cons p t ih =>
      intro k a h hwf
      rw [lookupKind] at h
      by_cases hk : p.1 = k
      · rw [if_pos hk] at h
        have : p.2 = a := by simpa using h
        rw [← this, hwf p (List.mem_cons_self p t)]
        exact hk
      · rw [if_neg hk] at h
        exact ih h (fun x hx => hwf x (List.mem_cons_of_mem p hx))

/-- Projecting the kinds out of an order-filterMap over kinds recovers the
filter of the kinds whose lookup succeeds. -/
theorem map_layer_filterMap_lookup :
    ∀ (l : List LayerKind) (rs : List (LayerKind × AggregatedLayer)),
      (∀ p ∈ rs, (p.2).layer = p.1) →
      (l.filterMap (fun k => lookupKind k rs)).map AggregatedLayer.layer =
        l.filter (fun k => (lookupKind k rs).isSome) := by
  intro l rs hwf
  induction l with
  | nil => rfl
  | cons k t ih =>
      cases h : lookupKind k rs with
      | none => simp [List.filterMap_cons, List.filter_cons, h, ih]
      | some a =>
          simp [List.filterMap_cons, List.filter_cons, h, ih,
            lookupKind_layer h hwf]

/-- C9: `toggleLayer k` negates exactly the field `k` of the layer
visibility state, leaves every other field unchanged, and applying it twice
restores the original state. -/
theorem c9_toggleLayer_frame (k k' : LayerKey) (s : LayerVisibility) (h : k' ≠ k) :
    getLayer (toggleLayer k s) k = !(getLayer s k) ∧
    getLayer (toggleLayer k s) k' = getLayer s k' ∧
    toggleLayer k (toggleLayer k s) = s := by
  cases s with
  | mk a b c =>
      cases k <;> cases k' <;>
        first
          | exact absurd rfl h
          | simp [toggleLayer, getLayer]

/-- Witness for C9 at the initial UI state {soil: true, rainfall: true,
ndvi: false} of `App.tsx`, toggling the soil layer. -/
theorem c9_witness :
    getLayer (toggleLayer LayerKey.soil ⟨true, true, false⟩) LayerKey.soil =
      !(getLayer ⟨true, true, false⟩ LayerKey.soil) ∧
    getLayer (toggleLayer LayerKey.soil ⟨true, true, false⟩) LayerKey.rainfall =
      getLayer ⟨true, true, false⟩ LayerKey.rainfall ∧
    toggleLayer LayerKey.soil (toggleLayer LayerKey.soil ⟨true, true, false⟩) =
      ⟨true, true, false⟩ :=
  c9_toggleLayer_frame LayerKey.soil LayerKey.rainfall ⟨true, true, false⟩ (by decide)

/-- C10: with no selected area, the data panel and the download panel both
render nothing — no soil, rainfall, or crop information and no download
buttons are shown without a selection. -/
theorem c10_panels_render_nothing_without_selection :
    dataPanel none = none ∧ downloadPanel none = none :=
  ⟨rfl, rfl⟩

/-- C7: the Geometry Normalizer rejects every AOI containing a vertex with
latitude outside [-90,90] or longitude outside [-180,180] with a
GeometryError, and the whole request fails identically for any reference
data — validation aborts before any spatial work. -/
theorem c7_out_of_bounds_rejected (rings : List (List Coord))
    (h : ∃ r ∈ rings, ∃ p ∈ r, ¬ vertexInBounds p) :
    normalizeAOI rings = Except.error GeometryError.outOfBounds ∧
    ∀ req features dv, computeAreaReport rings req features dv =
      Except.error GeometryError.outOfBounds := by
  obtain ⟨r, hr, p, hp, hnb⟩ := h
  have hfirst : rings.isEmpty = false := by
    cases rings with
    | nil => exact absurd hr (List.not_mem_nil r)
    | cons x xs => rfl
  have hany : rings.any (fun r => r.any (fun p => !(decide (vertexInBounds p)))) = true := by
    rw [List.any_eq_true]
    exact ⟨r, hr, by
      rw [List.any_eq_true]
      exact ⟨p, hp, by simp [hnb]⟩⟩
  have hnorm : normalizeAOI rings = Except.error GeometryError.outOfBounds := by
    rw [normalizeAOI, hfirst, hany]
    rfl
  exact ⟨hnorm, fun req features dv => computeAreaReport_error hnorm req features dv⟩

/-- Witness for C7: a ring whose first vertex has latitude 95 degrees. -/
theorem c7_witness :
    normalizeAOI [badRing] = Except.error GeometryError.outOfBounds ∧
    computeAreaReport [badRing] [LayerKind.soil] [featA] 0 =
      Except.error GeometryError.outOfBounds :=
  ⟨(c7_out_of_bounds_rejected [badRing] (by decide)).1,
   (c7_out_of_bounds_rejected [badRing] (by decide)).2 [LayerKind.soil] [featA] 0⟩

/-- C6: with an empty candidate set for a layer the engine produces an
AggregatedLayer with zero contributing features, covered-area fraction 0,
and absent aggregates, and a request over such data still succeeds whenever
the AOI normalizes. -/
theorem c6_empty_candidates (reg : Region) (k : LayerKind)
    (features : List VectorFeature) (h : contributors reg k features = []) :
    aggregateLayer reg k features =
      { layer := k, contributingCount := 0, numericAggregates := [],
        categoricalAggregates := [], coveredFraction := 0 } ∧
    ∀ rings req dv aoi, normalizeAOI rings = Except.ok aoi →
      computeAreaReport rings req features dv =
        Except.ok (buildReport aoi req features dv) := by
  constructor
  · have hnames : attrNames reg k features = [] := by
      simp [attrNames, h]
    have hcov : coveredRegion reg k features = ∅ := by
      simp [coveredRegion, h]
    have hfrac : coveredFraction reg k features = 0 := by
      rw [coveredFraction]
      split
      · rfl
      · simp [hcov, area]
    simp [aggregateLayer, h, hnames, hfrac]
  · intro rings req dv aoi hok
    exact computeAreaReport_ok hok req features dv

/-- Witness for C6: the AOI overlaps no rainfall feature (scenario C). -/
theorem c6_witness :
    contributors ∅ LayerKind.rainfall [] = [] ∧
    aggregateLayer ∅ LayerKind.rainfall [] =
      { layer := LayerKind.rainfall, contributingCount := 0, numericAggregates := [],
        categoricalAggregates := [], coveredFraction := 0 } ∧
    computeAreaReport [unitRing] [LayerKind.rainfall] [] 0 =
      Except.ok (buildReport aoiU [LayerKind.rainfall] [] 0) :=
  ⟨rfl,
   (c6_empty_candidates ∅ LayerKind.rainfall [] rfl).1,
   (c6_empty_candidates ∅ LayerKind.rainfall [] rfl).2 [unitRing] [LayerKind.rainfall] 0 aoiU rfl⟩

/-- C3 (amended): the covered-area fraction of every AggregatedLayer lies in
[0,1]; enlarging the AOI while holding reference data fixed never decreases
the covered area (the unioned overlap), though the fraction itself may
decrease as the AOI area grows. -/
theorem c3_fraction_bounds_covered_area_monotone (reg₁ reg₂ : Region)
    (k : LayerKind) (features : List VectorFeature) (h : reg₁ ⊆ reg₂) :
    (0 ≤ (aggregateLayer reg₁ k features).coveredFraction ∧
      (aggregateLayer reg₁ k features).coveredFraction ≤ 1) ∧
    area (coveredRegion reg₁ k features) ≤ area (coveredRegion reg₂ k features) := by
  constructor
  · have : (aggregateLayer reg₁ k features).coveredFraction =
        coveredFraction reg₁ k features := rfl
    rw [this, coveredFraction]
    split
    · exact ⟨le_refl 0, by norm_num⟩
    · exact ⟨le_min (by norm_num) (le_max_left 0 _), min_le_left 1 _⟩
  · have hsub : coveredRegion reg₁ k features ⊆ coveredRegion reg₂ k features := by
      intro c hc
      rw [coveredRegion, Finset.mem_filter] at hc
      obtain ⟨hcr, hany⟩ := hc
      rw [List.any_eq_true] at hany
      obtain ⟨f, hf, hcf⟩ := hany
      rw [contributors, List.mem_filter] at hf
      have hprop := of_decide_eq_true hf.2
      rw [coveredRegion, Finset.mem_filter]
      refine ⟨h hcr, ?_⟩
      rw [List.any_eq_true]
      refine ⟨f, ?_, hcf⟩
      rw [contributors, List.mem_filter]
      refine ⟨hf.1, decide_eq_true ?_⟩
      exact ⟨hprop.1, hprop.2.mono (Finset.inter_subset_inter h (Finset.Subset.refl f.region))⟩
    rw [area, area]
    exact_mod_cast Finset.card_le_card hsub

/-- Witness for C3 (amended): one cell grown to two cells. -/
theorem c3_witness :
    (({((0 : ℤ), (0 : ℤ))} : Finset Cell) ⊆ ({((0 : ℤ), (0 : ℤ)), (1, 0)} : Finset Cell)) ∧
    (0 ≤ (aggregateLayer {((0 : ℤ), (0 : ℤ))} LayerKind.soil [cellFeat]).coveredFraction ∧
      (aggregateLayer {((0 : ℤ), (0 : ℤ))} LayerKind.soil [cellFeat]).coveredFraction ≤ 1) ∧
    area (coveredRegion {((0 : ℤ), (0 : ℤ))} LayerKind.soil [cellFeat]) ≤
      area (coveredRegion {((0 : ℤ), (0 : ℤ)), (1, 0)} LayerKind.soil [cellFeat]) :=
  ⟨by decide,
   (c3_fraction_bounds_covered_area_monotone {((0 : ℤ), (0 : ℤ))}
      {((0 : ℤ), (0 : ℤ)), (1, 0)} LayerKind.soil [cellFeat] (by decide)).1,
   (c3_fraction_bounds_covered_area_monotone {((0 : ℤ), (0 : ℤ))}
      {((0 : ℤ), (0 : ℤ)), (1, 0)} LayerKind.soil [cellFeat] (by decide)).2⟩

/-- Counterexample for C3 as stated: enlarging the AOI from one covered cell
to that cell plus an uncovered one strictly decreases the covered-area
fraction (from 1 to 1/2), so the fraction is not monotone in the AOI. -/
theorem c3_counterexample :
    (({((0 : ℤ), (0 : ℤ))} : Finset Cell) ⊆ ({((0 : ℤ), (0 : ℤ)), (1, 0)} : Finset Cell)) ∧
    (aggregateLayer {((0 : ℤ), (0 : ℤ)), (1, 0)} LayerKind.soil [cellFeat]).coveredFraction <
      (aggregateLayer {((0 : ℤ), (0 : ℤ))} LayerKind.soil [cellFeat]).coveredFraction := by
  constructor
  · decide
  · have e1 : (aggregateLayer {((0 : ℤ), (0 : ℤ)), (1, 0)} LayerKind.soil
        [cellFeat]).coveredFraction = min 1 (max 0 ((1 : ℚ) / 2)) := rfl
    have e2 : (aggregateLayer {((0 : ℤ), (0 : ℤ))} LayerKind.soil
        [cellFeat]).coveredFraction = min 1 (max 0 ((1 : ℚ) / 1)) := rfl
    rw [e1, e2]
    norm_num

/-- C2: every reported area-weighted mean lies within the closed interval
[min, max] of the numeric values of the features that actually intersect the
AOI, for any AOI region and any reference data. -/
theorem c2_weighted_mean_within_bounds (reg : Region) (k : LayerKind)
    (features : List VectorFeature) (name : String) (q v₀ : ℚ) (vs : List ℚ)
    (hmem : (name, q) ∈ (aggregateLayer reg k features).numericAggregates)
    (hv : (numericContribs reg k features name).map Prod.fst = v₀ :: vs) :
    vs.foldr min v₀ ≤ q ∧ q ≤ vs.foldr max v₀ := by
  obtain ⟨hne, hq⟩ := numericAggregate_eq_ratio (mem_numericAggregates hmem)
  have hpos : ∀ p ∈ numericContribs reg k features name, 0 < p.2 :=
    fun p hp => numericContribs_area_pos hp
  have hw : ∀ p ∈ numericContribs reg k features name, 0 ≤ p.2 :=
    fun p hp => le_of_lt (hpos p hp)
  have hta : 0 < ((numericContribs reg k features name).map Prod.snd).sum :=
    total_weight_pos _ hne hpos
  have hlo : ∀ p ∈ numericContribs reg k features name, vs.foldr min v₀ ≤ p.1 := by
    intro p hp
    have : p.1 ∈ v₀ :: vs := hv ▸ List.mem_map_of_mem Prod.fst hp
    rcases List.mem_cons.mp this with h | h
    · rw [h]; exact foldr_min_le_init vs v₀
    · exact foldr_min_le vs v₀ p.1 h
  have hhi : ∀ p ∈ numericContribs reg k features name, p.1 ≤ vs.foldr max v₀ := by
    intro p hp
    have : p.1 ∈ v₀ :: vs := hv ▸ List.mem_map_of_mem Prod.fst hp
    rcases List.mem_cons.mp this with h | h
    · rw [h]; exact init_le_foldr_max vs v₀
    · exact le_foldr_max vs v₀ p.1 h
  rw [hq]
  constructor
  · exact (le_div_iff₀ hta).mpr (le_weightedSum _ _ hlo hw)
  · exact (div_le_iff₀ hta).mpr (weightedSum_le _ _ hhi hw)

/-- Witness for C2: two one-cell soil features with pH 6 and 8. -/
theorem c2_witness :
    (("ph", qW) ∈ (aggregateLayer regW LayerKind.soil [featLo, featHi]).numericAggregates) ∧
    ((numericContribs regW LayerKind.soil [featLo, featHi] "ph").map Prod.fst = [6, 8]) ∧
    ([(8 : ℚ)].foldr min 6 ≤ qW ∧ qW ≤ [(8 : ℚ)].foldr max 6) := by
  have hmem : ("ph", qW) ∈
      (aggregateLayer regW LayerKind.soil [featLo, featHi]).numericAggregates := by
    have h : (aggregateLayer regW LayerKind.soil [featLo, featHi]).numericAggregates =
        [("ph", qW)] := rfl
    rw [h]
    exact List.mem_singleton.mpr rfl
  exact ⟨hmem, rfl,
    c2_weighted_mean_within_bounds regW LayerKind.soil [featLo, featHi] "ph" qW 6 [8] hmem rfl⟩

/-- C1: every numeric aggregate reported by `computeAreaReport` is the
area-weighted mean of the contributing features' values — the ratio of
Σ(value·intersectionArea) to Σ(intersectionArea) over the features whose
intersection with the AOI is non-empty. -/
theorem c1_report_area_weighted_mean (rings : List (List Coord))
    (req : List LayerKind) (features : List VectorFeature) (dv : ℕ) (aoi : AOI)
    (rep : AreaReport) (agg : AggregatedLayer) (k : LayerKind) (name : String) (q : ℚ)
    (h1 : normalizeAOI rings = Except.ok aoi)
    (h2 : computeAreaReport rings req features dv = Except.ok rep)
    (h3 : rep.layerFor k = some agg)
    (h4 : (name, q) ∈ agg.numericAggregates) :
    numericContribs (rasterize aoi) k (sortByFid features) name ≠ [] ∧
    q = ((numericContribs (rasterize aoi) k (sortByFid features) name).map
          (fun p => p.1 * p.2)).sum /
        ((numericContribs (rasterize aoi) k (sortByFid features) name).map Prod.snd).sum := by
  rw [computeAreaReport_ok h1 req features dv] at h2
  have hrep : rep = buildReport aoi req features dv := (Except.ok.inj h2).symm
  subst hrep
  have hpred : agg.layer = k := by
    have := List.find?_some h3
    simpa using this
  have hmem : agg ∈ (buildReport aoi req features dv).layers :=
    List.mem_of_find?_eq_some h3
  rw [buildReport] at hmem
  simp only [List.mem_map] at hmem
  obtain ⟨k', _, hEq⟩ := hmem
  have hk' : k' = k := by
    rw [← hEq] at hpred
    exact hpred
  rw [hk'] at hEq
  rw [← hEq] at h4
  exact numericAggregate_eq_ratio (mem_numericAggregates h4)

/-- Witness for C1: scenario B of spec §8 — 60% of the AOI has pH 6.5, 40%
has pH 7.5, and the reported aggregate is 6.9. -/
theorem c1_witness :
    normalizeAOI [sqRing] = Except.ok aoiB ∧
    computeAreaReport [sqRing] [LayerKind.soil] [featA, featB] 0 =
      Except.ok (buildReport aoiB [LayerKind.soil] [featA, featB] 0) ∧
    (buildReport aoiB [LayerKind.soil] [featA, featB] 0).layerFor LayerKind.soil =
      some (aggregateLayer (rasterize aoiB) LayerKind.soil (sortByFid [featA, featB])) ∧
    ("ph", qB) ∈ (aggregateLayer (rasterize aoiB) LayerKind.soil
      (sortByFid [featA, featB])).numericAggregates ∧
    (numericContribs (rasterize aoiB) LayerKind.soil (sortByFid [featA, featB]) "ph" ≠ [] ∧
      qB = ((numericContribs (rasterize aoiB) LayerKind.soil
              (sortByFid [featA, featB]) "ph").map (fun p => p.1 * p.2)).sum /
           ((numericContribs (rasterize aoiB) LayerKind.soil
              (sortByFid [featA, featB]) "ph").map Prod.snd).sum) ∧
    qB = 69 / 10 := by
  have hmem : ("ph", qB) ∈ (aggregateLayer (rasterize aoiB) LayerKind.soil
      (sortByFid [featA, featB])).numericAggregates := by
    have h : (aggregateLayer (rasterize aoiB) LayerKind.soil
        (sortByFid [featA, featB])).numericAggregates = [("ph", qB)] := rfl
    rw [h]
    exact List.mem_singleton.mpr rfl
  refine ⟨rfl, rfl, rfl, hmem, ?_, ?_⟩
  · exact c1_report_area_weighted_mean [sqRing] [LayerKind.soil] [featA, featB] 0 aoiB
      (buildReport aoiB [LayerKind.soil] [featA, featB] 0)
      (aggregateLayer (rasterize aoiB) LayerKind.soil (sortByFid [featA, featB]))
      LayerKind.soil "ph" qB rfl rfl rfl hmem
  · norm_num [qB]

/-- C4: `computeAreaReport` is deterministic — identical AOI ring list,
identical requested layer set, and identical data version yield identical
AreaReports, however the backing store happens to enumerate the reference
features and the requested set, because fid-sorting canonicalises every
fold (including categorical tie-breaking) before aggregation. -/
theorem c4_report_deterministic (rings : List (List Coord))
    (req₁ req₂ : List LayerKind) (f₁ f₂ : List VectorFeature) (dv : ℕ)
    (hreq : List.Perm req₁ req₂) (hf : List.Perm f₁ f₂)
    (hnd : (f₁.map VectorFeature.fid).Nodup) :
    computeAreaReport rings req₁ f₁ dv = computeAreaReport rings req₂ f₂ dv := by
  have hsort : sortByFid f₁ = sortByFid f₂ := sortByFid_eq_of_perm hf hnd
  have hfil : canonicalKinds.filter (fun k => decide (k ∈ req₁)) =
      canonicalKinds.filter (fun k => decide (k ∈ req₂)) :=
    List.filter_congr (fun k _ => decide_eq_decide.mpr hreq.mem_iff)
  unfold computeAreaReport
  cases hnorm : normalizeAOI rings with
  | error e => rfl
  | ok aoi =>
      simp only [buildReport]
      rw [hsort, hfil]

/-- Witness for C4: the same two features and the same two-layer request
supplied in opposite orders. -/
theorem c4_witness :
    List.Perm [LayerKind.soil, LayerKind.rainfall] [LayerKind.rainfall, LayerKind.soil] ∧
    List.Perm [catX, catY] [catY, catX] ∧
    ([catX, catY].map VectorFeature.fid).Nodup ∧
    computeAreaReport [unitRing] [LayerKind.soil, LayerKind.rainfall] [catX, catY] 3 =
      computeAreaReport [unitRing] [LayerKind.rainfall, LayerKind.soil] [catY, catX] 3 :=
  ⟨by decide, by decide, by decide,
   c4_report_deterministic [unitRing] [LayerKind.soil, LayerKind.rainfall]
     [LayerKind.rainfall, LayerKind.soil] [catX, catY] [catY, catX] 3
     (by decide) (by decide) (by decide)⟩

/-- C5: the Result Assembler lists the AggregatedLayers in the fixed order
Soil, Rainfall, CropSuitability, Raster regardless of the order in which
the per-layer computations complete: permuting the completion order leaves
the report unchanged, and the output kinds are exactly the canonical kind
list filtered to the kinds present. -/
theorem c5_assembler_fixed_order (dv : ℕ)
    (rs rs' : List (LayerKind × AggregatedLayer)) (hp : List.Perm rs rs')
    (hnd : (rs.map Prod.fst).Nodup) (hwf : ∀ p ∈ rs, (p.2).layer = p.1) :
    assembleReport dv rs = assembleReport dv rs' ∧
    (assembleReport dv rs).layers.map AggregatedLayer.layer =
      canonicalKinds.filter (fun k => decide (k ∈ rs.map Prod.fst)) := by
  constructor
  · simp only [assembleReport]
    have h : (fun k => lookupKind k rs) = (fun k => lookupKind k rs') :=
      funext (lookupKind_perm hp hnd)
    rw [h]
  · show (canonicalKinds.filterMap (fun k => lookupKind k rs)).map AggregatedLayer.layer = _
    rw [map_layer_filterMap_lookup canonicalKinds rs hwf]
    exact List.filter_congr (fun k _ => lookupKind_isSome_eq rs k)

/-- Witness for C5: all four layer results arriving in reversed completion
order. -/
theorem c5_witness :
    List.Perm rsW rsW2 ∧
    assembleReport 1 rsW = assembleReport 1 rsW2 ∧
    (assembleReport 1 rsW).layers.map AggregatedLayer.layer =
      canonicalKinds.filter (fun k => decide (k ∈ rsW.map Prod.fst)) :=
  ⟨by decide,
   (c5_assembler_fixed_order 1 rsW rsW2 (by decide) (by decide) (by decide)).1,
   (c5_assembler_fixed_order 1 rsW rsW2 (by decide) (by decide) (by decide)).2⟩
